import Mathlib

/-
Verification of the nwc-reports transformation pipeline.

The source is a pandas/plotly report generator consisting of two parts:
  * `DataFrameOperations` / `get_df_from_excel` — table normalization
    (header flattening, column selection, per-category folding);
  * `Report` — aggregates over the normalized table (indicators and
    pie charts) assembled by `make_plot`.

We embed the tables shallowly:
  * a raw/normalized frame is a column-major association list
    `List (String × List Cell)` (pandas DataFrame with named columns);
  * the normalized table consumed by `Report` is a row-major
    `List NRow`, one record per patient row;
  * fallible pandas operations (missing column lookups, `strftime` on a
    non-date, element-wise `+` on incompatible cells) return
    `Except String _`.
-/

set_option maxRecDepth 4000

/-- A single cell of a pandas frame: a number, a string, a date
(year/month/day, as produced by `read_excel` for the visit-date column),
or a missing value (NaN). -/
inductive Cell where
  | num (q : ℚ)
  | str (s : String)
  | date (y m d : ℕ)
  | nan
deriving DecidableEq

/-- A data frame, column-major: list of (column name, column values). -/
abbrev Frame := List (String × List Cell)

/-- A raw frame as read by `read_excel` with `header=[3,4,5]`: each column
is named by its list of header tiers. -/
abbrev RawFrame := List (List String × List Cell)

/-- Column names of a frame. -/
def colNames (f : Frame) : List String := f.map (fun col => col.1)

/-- Python's substring test `pat in s` on the underlying character lists:
does `pat` occur as a contiguous infix? -/
def listHasInfix (pat : List Char) : List Char → Bool
  | [] => pat.isEmpty
  | c :: rest => pat.isPrefixOf (c :: rest) || listHasInfix pat rest

/-- Python's `pat in s` for strings. -/
def containsSub (pat s : String) : Bool := listHasInfix pat.data s.data

/-- Python's `s[:-1]`: drop the last character (the empty string stays
empty). -/
def pyDropLast (s : String) : String := ⟨s.data.dropLast⟩

/-- `REVENUE_GENERATING_CATEGORIES` from the source, with the literal
duplicated `"Lab"` entry preserved. -/
def REVENUE_GENERATING_CATEGORIES : List String :=
  ["Consultation", "Lab", "Radiology", "Procedure", "Lab", "Consumable", "Drug"]

/-- The loop body of `DataFrameOperations.rename_cols` for one column:
concatenate `tier ++ "_"` for every header tier whose label does not
contain `"Unnamed"`, then slice off the trailing character with `[:-1]`. -/
def new_col_name (tiers : List String) : String :=
  pyDropLast (tiers.foldl
    (fun acc c => if containsSub ("Unnamed") c then acc else acc ++ c ++ "_") (""))

/-- `DataFrameOperations.rename_cols`: flatten the multi-index column
names by joining the tiers with underscores. -/
def rename_cols (df : RawFrame) : Frame :=
  df.map (fun col => (new_col_name col.1, col.2))

/-- `df[name]` for a single column: the first column with that name, or a
`KeyError`. -/
def getColE (f : Frame) (n : String) : Except String (List Cell) :=
  match f.find? (fun col => col.1 == n) with
  | some col => .ok col.2
  | none => .error ("KeyError: " ++ n)

/-- `df[name] = vals`: overwrite every column named `name`, or append a
new column at the end if none exists. -/
def assignCol (f : Frame) (n : String) (v : List Cell) : Frame :=
  if f.any (fun col => col.1 == n) then
    f.map (fun col => if col.1 == n then (n, v) else col)
  else
    f ++ [(n, v)]

/-- `df.drop(names, axis=1)`: remove every column whose name occurs in
`names`. -/
def dropCols (f : Frame) (names : List String) : Frame :=
  f.filter (fun col => !(names.contains col.1))

/-- `dropna(axis=1, how="all")`: drop a column iff every one of its
values is NaN. -/
def dropAllNa (raw : RawFrame) : RawFrame :=
  raw.filter (fun col => !(col.2.all (fun c => c == Cell.nan)))

/-- Zero-pad a natural number to two digits (`strftime` `%m`/`%d`). -/
def pad2 (n : ℕ) : String :=
  if n < 10 then "0" ++ toString n else toString n

/-- Zero-pad a natural number to four digits (`strftime` `%Y`). -/
def pad4 (n : ℕ) : String :=
  if n < 10 then "000" ++ toString n
  else if n < 100 then "00" ++ toString n
  else if n < 1000 then "0" ++ toString n
  else toString n

/-- `x.strftime("%Y-%m-%d")` on one cell: succeeds only on a date. -/
def cellStrftime : Cell → Except String Cell
  | .date y m d => .ok (.str (pad4 y ++ "-" ++ pad2 m ++ "-" ++ pad2 d))
  | _ => .error ("AttributeError: strftime on a non-date value")

/-- `strftime` applied down a column (`Series.apply`). -/
def formatSeries : List Cell → Except String (List Cell)
  | [] => .ok []
  | c :: cs =>
    match cellStrftime c with
    | .error e => .error e
    | .ok c' =>
      match formatSeries cs with
      | .error e => .error e
      | .ok cs' => .ok (c' :: cs')

/-- Rewrite every `"(CVR) Date"` column of the frame with the formatted
dates (the assignment `df["(CVR) Date"] = df["(CVR) Date"].apply(...)`). -/
def formatDateCol : Frame → Except String Frame
  | [] => .ok []
  | col :: cols =>
    if col.1 == "(CVR) Date" then
      match formatSeries col.2 with
      | .error e => .error e
      | .ok vals =>
        match formatDateCol cols with
        | .error e => .error e
        | .ok rest => .ok ((col.1, vals) :: rest)
    else
      match formatDateCol cols with
      | .error e => .error e
      | .ok rest => .ok (col :: rest)

/-- The fixed metadata columns appended to `required_cols` in
`focus_on_specific_columns`. -/
def requiredMetaCols : List String :=
  ["Net Revenue", "Ins.", "Policy Name", "New Reg.", "Old Reg.",
   "Speciality", "Doctor Name", "(CVR) Date"]

/-- Look up a list of columns in order (`df[required_cols]`); the first
missing name raises a `KeyError`. -/
def getCols (f : Frame) : List String → Except String (List (List Cell))
  | [] => .ok []
  | n :: ns =>
    match getColE f n with
    | .error e => .error e
    | .ok col =>
      match getCols f ns with
      | .error e => .error e
      | .ok cols => .ok (col :: cols)

/-- `DataFrameOperations.focus_on_specific_columns`: keep the columns
whose name contains `"_Net_"` plus the fixed metadata columns, then
format the visit-date column. -/
def focus_on_specific_columns (f : Frame) : Except String Frame :=
  let required := (colNames f).filter (fun n => containsSub ("_Net_") n)
      ++ requiredMetaCols
  match getCols f required with
  | .error e => .error e
  | .ok cols => formatDateCol (required.zip cols)

/-- Element-wise `+` on two cells, Python semantics: numbers add, strings
concatenate, anything else is a type error. -/
def cellAdd : Cell → Cell → Except String Cell
  | .num a, .num b => .ok (.num (a + b))
  | .str a, .str b => .ok (.str (a ++ b))
  | _, _ => .error ("TypeError: unsupported operand types for +")

/-- Element-wise sum of two columns (`df[a] + df[b]`). -/
def seriesAdd : List Cell → List Cell → Except String (List Cell)
  | [], _ => .ok []
  | _, [] => .ok []
  | x :: xs, y :: ys =>
    match cellAdd x y with
    | .error e => .error e
    | .ok z =>
      match seriesAdd xs ys with
      | .error e => .error e
      | .ok zs => .ok (z :: zs)

/-- One iteration of the `get_revenue_per_category` loop: read the two
sub-columns of category `c`, assign their sum to column `c`, and record
the two sub-column names for removal. -/
def foldStep (st : Frame × List String) (c : String) :
    Except String (Frame × List String) :=
  match getColE st.1 (c ++ "_Net_Cash") with
  | .error e => .error e
  | .ok cash =>
    match getColE st.1 (c ++ "_Net_Ins.") with
    | .error e => .error e
    | .ok insr =>
      match seriesAdd cash insr with
      | .error e => .error e
      | .ok v =>
        .ok (assignCol st.1 c v,
             st.2 ++ [c ++ "_Net_Cash", c ++ "_Net_Ins."])

/-- A Python `for` loop threading a frame and the pending remove-list,
aborting at the first exception. -/
def foldlE : (Frame × List String) → List String →
    Except String (Frame × List String)
  | st, [] => .ok st
  | st, c :: cs =>
    match foldStep st c with
    | .error e => .error e
    | .ok st' => foldlE st' cs

/-- `get_revenue_per_category` parameterized by the category list: run
the folding loop, then drop all recorded sub-columns at once. -/
def fold_with (cats : List String) (f : Frame) : Except String Frame :=
  match foldlE (f, []) cats with
  | .error e => .error e
  | .ok st => .ok (dropCols st.1 st.2)

/-- `DataFrameOperations.get_revenue_per_category`, using the literal
(duplicated) category list. -/
def get_revenue_per_category (f : Frame) : Except String Frame :=
  fold_with REVENUE_GENERATING_CATEGORIES f

/-- `get_df_from_excel` after the external `pd.read_excel` call: drop
all-NaN columns, flatten headers, select columns, fold categories. -/
def get_df_from_excel (raw : RawFrame) : Except String Frame :=
  match focus_on_specific_columns (rename_cols (dropAllNa raw)) with
  | .error e => .error e
  | .ok f2 => get_revenue_per_category f2

/-- One row of the normalized table consumed by `Report`: the folded
per-category net revenues (accessed by category name) and the metadata
columns kept by `focus_on_specific_columns`. -/
structure NRow where
  catVal : String → ℚ
  netRevenue : ℚ
  insr : ℚ
  policyName : String
  newReg : ℚ
  oldReg : ℚ
  speciality : String
  doctorName : String
  cvrDate : String

/-- The `Indicator` TypedDict of the source. -/
structure Indicator where
  value : ℚ
  title : String
deriving DecidableEq

/-- The `PieChart` TypedDict of the source. -/
structure PieChart where
  labels : List String
  values : List ℚ
  textinfo : String
deriving DecidableEq

/-- `df[[c]].map(lambda x: x != 0).sum().sum()`: the number of rows whose
entry in category column `c` is non-zero. -/
def countNZ (df : List NRow) (c : String) : ℕ :=
  df.countP (fun r => decide (r.catVal c ≠ 0))

/-- `Report.calculate_number_of_episodes`:
`df[REVENUE_GENERATING_CATEGORIES].map(lambda x: x != 0).sum().sum()` —
per-column non-zero counts (the duplicated `"Lab"` selects its column
twice) summed over the selected columns. -/
def calculate_number_of_episodes (df : List NRow) : Indicator :=
  { value := ((REVENUE_GENERATING_CATEGORIES.map (fun c => countNZ df c)).sum : ℕ),
    title := "Revenue Generating<br>Episodes" }

/-- `Report.calculate_number_of_patients`: `df.shape[0]`. -/
def calculate_number_of_patients (df : List NRow) : Indicator :=
  { value := (df.length : ℚ), title := "Number of Patients" }

/-- `Report.calculate_net_revnenue` (name as in the source):
`df["Net Revenue"].sum()`. -/
def calculate_net_revnenue (df : List NRow) : Indicator :=
  { value := (df.map (fun r => r.netRevenue)).sum, title := "Net Revenue" }

/-- `Report.calculate_new_vs_old_reg`. -/
def calculate_new_vs_old_reg (df : List NRow) : PieChart :=
  { labels := ["New", "Old"],
    values := [(df.map (fun r => r.newReg)).sum, (df.map (fun r => r.oldReg)).sum],
    textinfo := "label+value" }

/-- Insertion sort step on strings (pandas `groupby` sorts group keys). -/
def insertSorted (x : String) : List String → List String
  | [] => [x]
  | y :: ys => if y < x then y :: insertSorted x ys else x :: y :: ys

/-- Sort a list of strings lexicographically. -/
def sortStrings (l : List String) : List String := l.foldr insertSorted []

/-- The group keys of `df.groupby("Speciality")`: the distinct speciality
values, in sorted order. -/
def specKeys (df : List NRow) : List String :=
  sortStrings ((df.map (fun r => r.speciality)).dedup)

/-- The per-group sum `df.groupby("Speciality").sum()["Net Revenue"]` for
one group key. -/
def specSum (df : List NRow) (k : String) : ℚ :=
  ((df.filter (fun r => r.speciality == k)).map (fun r => r.netRevenue)).sum

/-- `Report.calculate_revenue_per_speciality`: group by speciality, sum
net revenue per group, truncate the labels to 6 characters (`i[:6]`). -/
def calculate_revenue_per_speciality (df : List NRow) : PieChart :=
  { labels := (specKeys df).map (fun k => k.take 6),
    values := (specKeys df).map (fun k => specSum df k),
    textinfo := "label+value" }

/-- `Report.calculate_insurance_vs_non_insurance`. -/
def calculate_insurance_vs_non_insurance (df : List NRow) : PieChart :=
  { labels := ["Non Ins", "Ins"],
    values := [(df.map (fun r => r.netRevenue)).sum - (df.map (fun r => r.insr)).sum,
               (df.map (fun r => r.insr)).sum],
    textinfo := "label+value" }

/-- Python dict assignment `d[k] = v`: update the existing entry in
place, or append a new one at the end. -/
def insertDict (d : List (String × ℕ)) (k : String) (v : ℕ) :
    List (String × ℕ) :=
  if d.any (fun p => p.1 == k) then
    d.map (fun p => if p.1 == k then (k, v) else p)
  else
    d ++ [(k, v)]

/-- One iteration of the `calculate_episodes_per_category` loop:
store the non-zero count in the dict unless it is zero. -/
def epcStep (df : List NRow) (d : List (String × ℕ)) (c : String) :
    List (String × ℕ) :=
  if countNZ df c ≠ 0 then insertDict d c (countNZ df c) else d

/-- `Report.calculate_episodes_per_category`: loop over the (duplicated)
category list building an insertion-ordered dict
(`episodes_per_category`), then read off its keys and values. -/
def calculate_episodes_per_category (df : List NRow) : PieChart :=
  { labels := (REVENUE_GENERATING_CATEGORIES.foldl (epcStep df) []).map
      (fun p => p.1),
    values := (REVENUE_GENERATING_CATEGORIES.foldl (epcStep df) []).map
      (fun p => (p.2 : ℚ)),
    textinfo := "label+value" }

/-- The composed chart produced by `Report.make_plot`: the `x_title`
caption, the placed indicator and pie traces, and the fixed layout. -/
structure Figure where
  xTitle : String
  indicators : List (ℕ × ℕ × Indicator)
  pies : List (ℕ × ℕ × PieChart)
  height : ℕ
  width : ℕ
  showlegend : Bool

/-- `Report.make_plot`: fails on an empty table, because
`df["(CVR) Date"].iloc[0]` (the `x_title` argument of `make_subplots`)
reads the first row; otherwise assembles the fixed 3×3 layout. -/
def make_plot (df : List NRow) : Except String Figure :=
  match df with
  | [] => .error ("IndexError: single positional indexer is out-of-bounds")
  | r :: _ =>
    .ok { xTitle := r.cvrDate,
          indicators := [(1, 1, calculate_number_of_episodes df),
                         (1, 2, calculate_number_of_patients df),
                         (1, 3, calculate_net_revnenue df)],
          pies := [(2, 1, calculate_episodes_per_category df),
                   (2, 2, calculate_new_vs_old_reg df),
                   (2, 3, calculate_revenue_per_speciality df),
                   (3, 3, calculate_insurance_vs_non_insurance df)],
          height := 800, width := 1000, showlegend := false }

/-- The deduplicated category list (spec side, §9): the literal list with
the repeated `"Lab"` removed, for the refinement comparison. -/
def DEDUP_CATEGORIES : List String :=
  ["Consultation", "Lab", "Radiology", "Procedure", "Consumable", "Drug"]

/-- `get_revenue_per_category` as it would be with the deduplicated
category list (spec side, for the refinement claim). -/
def get_revenue_per_category_dedup (f : Frame) : Except String Frame :=
  fold_with DEDUP_CATEGORIES f

/-- Spec-side description of header flattening: the kept tier labels
joined with an underscore separator, with no trailing separator. -/
def underscoreJoined : List String → String
  | [] => ""
  | [t] => t
  | t :: u :: ts => t ++ "_" ++ underscoreJoined (u :: ts)

/-- Counting with `countP` is summing 0/1 indicators over the list. -/
lemma countP_eq_sum_indicator (p : NRow → Bool) (l : List NRow) :
    l.countP p = (l.map (fun x => if p x then (1 : ℕ) else 0)).sum := by
  induction l with
  | nil => simp
  | cons a l ih =>
    by_cases h : p a
    · simp only [List.countP_cons, h, if_true, List.map_cons, List.sum_cons, ih]
      omega
    · simp [List.countP_cons, h, ih]

/-- Pointwise sums distribute over a list sum. -/
lemma sum_map_add {α : Type} (l : List α) (f g : α → ℕ) :
    (l.map (fun x => f x + g x)).sum = (l.map f).sum + (l.map g).sum := by
  induction l with
  | nil => simp
  | cons a l ih => simp [ih]; omega

/-- Exchanging the two sums of a rectangular double sum. -/
lemma sum_map_comm {α β : Type} (l₁ : List α) (l₂ : List β) (f : α → β → ℕ) :
    (l₁.map (fun a => (l₂.map (f a)).sum)).sum
      = (l₂.map (fun b => (l₁.map (fun a => f a b)).sum)).sum := by
  induction l₁ with
  | nil => simp
  | cons a l₁ ih =>
    simp only [List.map_cons, List.sum_cons, ih]
    rw [sum_map_add]

/-- Every entry of `insertDict d k v` is an old entry or the new pair. -/
lemma insertDict_mem {d : List (String × ℕ)} {k : String} {v : ℕ}
    {p : String × ℕ} (h : p ∈ insertDict d k v) : p ∈ d ∨ p = (k, v) := by
  unfold insertDict at h
  split at h
  · obtain ⟨q, hq, hmap⟩ := List.mem_map.1 h
    by_cases hk : q.1 == k
    · right; rw [if_pos hk] at hmap; exact hmap.symm
    · left; rw [if_neg hk] at hmap; exact hmap ▸ hq
  · rcases List.mem_append.1 h with h | h
    · exact Or.inl h
    · right; simpa using h

/-- `insertDict` keeps the dict keys duplicate-free. -/
lemma insertDict_keys_nodup {d : List (String × ℕ)} {k : String} {v : ℕ}
    (h : (d.map (fun p => p.1)).Nodup) :
    ((insertDict d k v).map (fun p => p.1)).Nodup := by
  unfold insertDict
  split
  · have heq : ((d.map (fun p => if p.1 == k then (k, v) else p)).map
        (fun p => p.1)) = d.map (fun p => p.1) := by
      rw [List.map_map]
      apply List.map_congr_left
      intro p _
      by_cases hk : p.1 = k <;> simp [hk]
    rw [heq]; exact h
  · rename_i hany
    rw [List.map_append]
    refine List.Nodup.append h (List.nodup_singleton k) ?_
    intro a ha hb
    have hk : a = k := by simpa using hb
    subst hk
    apply hany
    rw [List.any_eq_true]
    obtain ⟨q, hq, hq1⟩ := List.mem_map.1 ha
    exact ⟨q, hq, by simp [hq1]⟩

/-- Invariant of the `calculate_episodes_per_category` loop: every dict
entry has a key from the fixed category list, its value is that key's
non-zero count, the value is non-zero, and the keys stay distinct. -/
lemma epcFold_inv (df : List NRow) :
    ∀ (cs : List String) (d : List (String × ℕ)),
    (∀ p ∈ d, p.1 ∈ REVENUE_GENERATING_CATEGORIES
      ∧ p.2 = countNZ df p.1 ∧ p.2 ≠ 0) →
    (∀ c ∈ cs, c ∈ REVENUE_GENERATING_CATEGORIES) →
    (d.map (fun p => p.1)).Nodup →
    (∀ p ∈ cs.foldl (epcStep df) d,
       p.1 ∈ REVENUE_GENERATING_CATEGORIES
         ∧ p.2 = countNZ df p.1 ∧ p.2 ≠ 0)
    ∧ ((cs.foldl (epcStep df) d).map (fun p => p.1)).Nodup := by
  intro cs
  induction cs with
  | nil => intro d hd _ hnd; exact ⟨hd, hnd⟩
  | cons c cs ih =>
    intro d hd hcs hnd
    simp only [List.foldl_cons]
    apply ih
    · intro p hp
      unfold epcStep at hp
      split at hp
      · rcases insertDict_mem hp with h | h
        · exact hd p h
        · rename_i hcnt
          subst h
          exact ⟨hcs c (by simp), rfl, hcnt⟩
      · exact hd p hp
    · intro c' hc'; exact hcs c' (by simp [hc'])
    · unfold epcStep
      split
      · exact insertDict_keys_nodup hnd
      · exact hnd

/-- Row A of the spec's minimal synthetic normalized table. -/
def rowA : NRow :=
  { catVal := fun c => if c = "Consultation" then 100 else 0,
    netRevenue := 100, insr := 40, policyName := "PolA", newReg := 1, oldReg := 0,
    speciality := "Cardiology", doctorName := "DrA", cvrDate := "2024-01-01" }

/-- Row B of the spec's minimal synthetic normalized table. -/
def rowB : NRow :=
  { catVal := fun c => if c = "Lab" then 50 else 0,
    netRevenue := 50, insr := 0, policyName := "PolB", newReg := 0, oldReg := 1,
    speciality := "Cardiology", doctorName := "DrB", cvrDate := "2024-01-01" }

/-- The spec's minimal synthetic normalized table (§8). -/
def tblC1 : List NRow := [rowA, rowB]

/-- Claim C1 (counterexample): on the spec's 2-row synthetic table the
claimed aggregate bundle is false — the duplicated `"Lab"` category makes
`calculate_number_of_episodes` return 3 (not 2), and the 6-character
truncation `i[:6]` yields the speciality label `"Cardio"` (not
`"Cardiol"`). -/
theorem C1_counterexample :
    ¬ ((calculate_number_of_patients tblC1).value = 2
      ∧ (calculate_net_revnenue tblC1).value = 150
      ∧ (calculate_number_of_episodes tblC1).value = 2
      ∧ (calculate_insurance_vs_non_insurance tblC1).labels = ["Non Ins", "Ins"]
      ∧ (calculate_insurance_vs_non_insurance tblC1).values = [110, 40]
      ∧ (calculate_revenue_per_speciality tblC1).labels = ["Cardiol"]
      ∧ (calculate_revenue_per_speciality tblC1).values = [150]
      ∧ (calculate_new_vs_old_reg tblC1).labels = ["New", "Old"]
      ∧ (calculate_new_vs_old_reg tblC1).values = [1, 1]) := by
  intro h
  exact absurd h.2.2.1 (by decide)

/-- Claim C1 (amended): on the spec's 2-row synthetic table the
`ReportBuilder` aggregates return patientCount = 2, netRevenueTotal =
150, episodeCount = 3 (row B's non-zero Lab entry is counted twice by
the duplicated category list), an insurance split with the "Ins" slice
40 and the "Non Ins" slice 110, revenuePerSpecialty = [("Cardio", 150)]
(labels truncated to 6 characters), and registrationSplit = (1, 1). -/
theorem C1_amended :
    (calculate_number_of_patients tblC1).value = 2
    ∧ (calculate_net_revnenue tblC1).value = 150
    ∧ (calculate_number_of_episodes tblC1).value = 3
    ∧ (calculate_insurance_vs_non_insurance tblC1).labels = ["Non Ins", "Ins"]
    ∧ (calculate_insurance_vs_non_insurance tblC1).values = [110, 40]
    ∧ (calculate_revenue_per_speciality tblC1).labels = ["Cardio"]
    ∧ (calculate_revenue_per_speciality tblC1).values = [150]
    ∧ (calculate_new_vs_old_reg tblC1).labels = ["New", "Old"]
    ∧ (calculate_new_vs_old_reg tblC1).values = [1, 1] := by
  refine ⟨?_, ?_, by decide, rfl, ?_, by decide, ?_, rfl, ?_⟩
  · norm_num [calculate_number_of_patients, tblC1]
  · norm_num [calculate_net_revnenue, tblC1, rowA, rowB]
  · norm_num [calculate_insurance_vs_non_insurance, tblC1, rowA, rowB]
  · norm_num [calculate_revenue_per_speciality, specSum, specKeys, sortStrings,
      insertSorted, tblC1, rowA, rowB, List.dedup_cons_of_mem,
      List.dedup_cons_of_not_mem]
  · norm_num [calculate_new_vs_old_reg, tblC1, rowA, rowB]

/-- Claim C2: `calculate_number_of_episodes` equals the number of
non-zero cells summed over all rows and over the seven entries of the
literal category list (row-major double sum), and — equivalently — the
sum over the six distinct categories plus one extra copy of the Lab
count: each non-zero Lab entry contributes twice. -/
theorem C2_episode_count (df : List NRow) :
    (calculate_number_of_episodes df).value
      = (((df.map (fun r =>
          (REVENUE_GENERATING_CATEGORIES.map
            (fun c => if r.catVal c ≠ 0 then (1 : ℕ) else 0)).sum)).sum : ℕ) : ℚ)
    ∧ (calculate_number_of_episodes df).value
      = ((((DEDUP_CATEGORIES.map (fun c => countNZ df c)).sum
          + countNZ df "Lab" : ℕ)) : ℚ) := by
  constructor
  · have hcount : ∀ c, countNZ df c
        = (df.map (fun r => if r.catVal c ≠ 0 then (1 : ℕ) else 0)).sum := by
      intro c
      rw [countNZ, countP_eq_sum_indicator]
      simp
    have h1 : (REVENUE_GENERATING_CATEGORIES.map (fun c => countNZ df c))
        = REVENUE_GENERATING_CATEGORIES.map (fun c =>
            (df.map (fun r => if r.catVal c ≠ 0 then (1 : ℕ) else 0)).sum) :=
      List.map_congr_left (fun c _ => hcount c)
    show ((((REVENUE_GENERATING_CATEGORIES.map (fun c => countNZ df c)).sum : ℕ)) : ℚ) = _
    rw [Nat.cast_inj]
    rw [h1, sum_map_comm]
  · show ((((REVENUE_GENERATING_CATEGORIES.map (fun c => countNZ df c)).sum : ℕ)) : ℚ) = _
    rw [Nat.cast_inj]
    simp only [REVENUE_GENERATING_CATEGORIES, DEDUP_CATEGORIES,
      List.map_cons, List.map_nil, List.sum_cons, List.sum_nil]
    omega

/-- Claim C5: `make_plot` fails on an empty normalized table (the
`x_title` caption reads the first row's formatted visit date), and on a
non-empty table it succeeds with the caption equal to the first row's
`"(CVR) Date"` value. -/
theorem C5_empty_table (df : List NRow) :
    (df = [] → ∃ e, make_plot df = .error e)
    ∧ (∀ r rest, df = r :: rest →
        ∃ fig, make_plot df = .ok fig ∧ fig.xTitle = r.cvrDate) := by
  constructor
  · rintro rfl
    exact ⟨_, rfl⟩
  · rintro r rest rfl
    exact ⟨_, rfl, rfl⟩

/-- Witness for C5 at concrete tables: the empty table errors, the
2-row synthetic table succeeds with caption `"2024-01-01"`. -/
theorem C5_empty_table_witness :
    (∃ e, make_plot ([] : List NRow) = .error e)
    ∧ (∃ fig, make_plot tblC1 = .ok fig ∧ fig.xTitle = rowA.cvrDate) :=
  ⟨(C5_empty_table []).1 rfl, (C5_empty_table tblC1).2 rowA [rowB] rfl⟩

/-- Claim C6: the labels of `calculate_episodes_per_category` never
include a category whose non-zero count is zero, are all drawn from the
fixed category list, and number at most 7. -/
theorem C6_episodes_labels (df : List NRow) :
    (∀ l ∈ (calculate_episodes_per_category df).labels, countNZ df l ≠ 0)
    ∧ (∀ l ∈ (calculate_episodes_per_category df).labels,
        l ∈ REVENUE_GENERATING_CATEGORIES)
    ∧ (calculate_episodes_per_category df).labels.length ≤ 7 := by
  have h := epcFold_inv df REVENUE_GENERATING_CATEGORIES []
    (by intro p hp; cases hp) (fun c hc => hc) (by simp)
  simp only [calculate_episodes_per_category]
  refine ⟨?_, ?_, ?_⟩
  · intro l hl
    obtain ⟨p, hp, hpl⟩ := List.mem_map.1 hl
    have hps := h.1 p hp
    rw [← hpl, ← hps.2.1]
    exact hps.2.2
  · intro l hl
    obtain ⟨p, hp, hpl⟩ := List.mem_map.1 hl
    exact hpl ▸ (h.1 p hp).1
  · have hsub : ((REVENUE_GENERATING_CATEGORIES.foldl (epcStep df) []).map
        (fun p => p.1)) ⊆ REVENUE_GENERATING_CATEGORIES := by
      intro l hl
      obtain ⟨p, hp, hpl⟩ := List.mem_map.1 hl
      exact hpl ▸ (h.1 p hp).1
    have hlen := (List.Nodup.subperm h.2 hsub).length_le
    simpa [REVENUE_GENERATING_CATEGORIES] using hlen

/-- Witness for C6 at the synthetic table: `"Lab"` is a returned label,
its non-zero count is non-zero, and it belongs to the category list. -/
theorem C6_episodes_labels_witness :
    countNZ tblC1 "Lab" ≠ 0
    ∧ ("Lab" : String) ∈ REVENUE_GENERATING_CATEGORIES := by
  have h := C6_episodes_labels tblC1
  exact ⟨h.1 "Lab" (by decide), h.2.1 "Lab" (by decide)⟩

/-- Claim C8: `calculate_number_of_patients` returns the row count of
the normalized table and is invariant under any permutation of rows. -/
theorem C8_patient_count (df df' : List NRow) :
    (calculate_number_of_patients df).value = (df.length : ℚ)
    ∧ (df.Perm df' →
        calculate_number_of_patients df = calculate_number_of_patients df') := by
  refine ⟨rfl, fun h => ?_⟩
  unfold calculate_number_of_patients
  rw [h.length_eq]

/-- Witness for C8: the synthetic table has 2 patients and swapping its
two rows leaves the indicator unchanged. -/
theorem C8_patient_count_witness :
    (calculate_number_of_patients tblC1).value = 2
    ∧ calculate_number_of_patients tblC1
        = calculate_number_of_patients [rowB, rowA] := by
  constructor
  · have h := (C8_patient_count tblC1 [rowB, rowA]).1
    simpa [tblC1] using h
  · exact (C8_patient_count tblC1 [rowB, rowA]).2 (List.Perm.swap rowB rowA [])

/-- Claim C10: every pie chart built by the four pie-building operations
pairs its labels and values positionally — the value lists are exactly
the aggregates of the corresponding (untruncated) label keys, and the
two fixed binary splits always have exactly two labeled slices. -/
theorem C10_pie_invariants (df : List NRow) :
    (calculate_new_vs_old_reg df).labels = ["New", "Old"]
    ∧ (calculate_new_vs_old_reg df).values
        = [(df.map (fun r => r.newReg)).sum, (df.map (fun r => r.oldReg)).sum]
    ∧ (calculate_insurance_vs_non_insurance df).labels = ["Non Ins", "Ins"]
    ∧ (calculate_insurance_vs_non_insurance df).values
        = [(df.map (fun r => r.netRevenue)).sum - (df.map (fun r => r.insr)).sum,
           (df.map (fun r => r.insr)).sum]
    ∧ (calculate_revenue_per_speciality df).labels
        = (specKeys df).map (fun k => k.take 6)
    ∧ (calculate_revenue_per_speciality df).values
        = (specKeys df).map (fun k => specSum df k)
    ∧ (calculate_episodes_per_category df).values
        = (calculate_episodes_per_category df).labels.map
            (fun c => ((countNZ df c : ℕ) : ℚ))
    ∧ (calculate_new_vs_old_reg df).labels.length
        = (calculate_new_vs_old_reg df).values.length
    ∧ (calculate_insurance_vs_non_insurance df).labels.length
        = (calculate_insurance_vs_non_insurance df).values.length
    ∧ (calculate_revenue_per_speciality df).labels.length
        = (calculate_revenue_per_speciality df).values.length
    ∧ (calculate_episodes_per_category df).labels.length
        = (calculate_episodes_per_category df).values.length := by
  have h := epcFold_inv df REVENUE_GENERATING_CATEGORIES []
    (by intro p hp; cases hp) (fun c hc => hc) (by simp)
  refine ⟨rfl, rfl, rfl, rfl, rfl, rfl, ?_, rfl, rfl,
    by simp [calculate_revenue_per_speciality],
    by simp [calculate_episodes_per_category]⟩
  simp only [calculate_episodes_per_category]
  rw [List.map_map]
  apply List.map_congr_left
  intro p hp
  have hps := (h.1 p hp).2.1
  simp [hps]

/-- The raw accumulator of the `rename_cols` inner loop: every kept tier
concatenated with a trailing underscore. -/
def withUnd : List String → String
  | [] => ""
  | t :: ts => t ++ "_" ++ withUnd ts

/-- The accumulator for a non-empty tier list is a non-empty string. -/
lemma withUnd_data_ne_nil (t : String) (ts : List String) :
    (withUnd (t :: ts)).data ≠ [] := by
  have hu : ("_" : String).data = ['_'] := rfl
  show (t ++ "_" ++ withUnd ts).data ≠ []
  rw [String.data_append, String.data_append, hu]
  intro h
  simp [List.append_eq_nil] at h

/-- Running the `rename_cols` inner loop from any accumulator appends
the concatenation of the kept (non-`Unnamed`) tiers. -/
lemma foldl_new_col (ts : List String) : ∀ acc : String,
    ts.foldl (fun a c => if containsSub ("Unnamed") c then a else a ++ c ++ "_") acc
      = acc ++ withUnd (ts.filter (fun c => !(containsSub ("Unnamed") c))) := by
  induction ts with
  | nil => intro acc; simp [withUnd]
  | cons t ts ih =>
    intro acc
    by_cases h : containsSub ("Unnamed") t
    · simp only [List.foldl_cons, h, if_true, List.filter_cons, Bool.not_true,
        cond_false, ih]
      simp [h]
    · simp only [List.foldl_cons, h, if_false, List.filter_cons, Bool.not_false,
        cond_true, ih]
      simp [h, withUnd, String.append_assoc]

/-- Dropping the last character distributes over an append whose right
part is non-empty. -/
lemma pyDropLast_append (s t : String) (h : t.data ≠ []) :
    pyDropLast (s ++ t) = s ++ pyDropLast t := by
  apply String.ext
  show ((s ++ t).data).dropLast = (s ++ pyDropLast t).data
  rw [String.data_append, String.data_append]
  show (s.data ++ t.data).dropLast = s.data ++ t.data.dropLast
  exact List.dropLast_append_of_ne_nil _ h

/-- Dropping the trailing underscore of the raw accumulator yields the
underscore-joined form. -/
lemma pyDropLast_withUnd (parts : List String) :
    pyDropLast (withUnd parts) = underscoreJoined parts := by
  induction parts with
  | nil => rfl
  | cons t ts ih =>
    cases ts with
    | nil =>
      show pyDropLast (t ++ "_" ++ "") = t
      rw [String.append_empty]
      apply String.ext
      show ((t ++ "_").data).dropLast = t.data
      rw [String.data_append]
      have hu : ("_" : String).data = ['_'] := rfl
      rw [hu]
      exact List.dropLast_concat
    | cons u ts' =>
      show pyDropLast ((t ++ "_") ++ withUnd (u :: ts'))
        = (t ++ "_") ++ underscoreJoined (u :: ts')
      rw [pyDropLast_append _ _ (withUnd_data_ne_nil u ts'), ih]

/-- `new_col_name` joins the kept tiers with single underscores and no
trailing separator. -/
lemma new_col_name_eq (tiers : List String) :
    new_col_name tiers
      = underscoreJoined (tiers.filter (fun t => !(containsSub ("Unnamed") t))) := by
  rw [new_col_name, foldl_new_col, String.empty_append, pyDropLast_withUnd]

/-- Claim C7: `rename_cols` names each column by joining its header
tiers with underscore separators, skipping every tier whose label
contains the `"Unnamed"` placeholder marker, with no trailing separator;
when all tiers are placeholders the flattened name is the empty string. -/
theorem C7_header_flattening :
    (∀ df : RawFrame, colNames (rename_cols df)
        = df.map (fun col =>
            underscoreJoined (col.1.filter (fun t => !(containsSub ("Unnamed") t)))))
    ∧ (∀ tiers : List String,
        (∀ t ∈ tiers, containsSub ("Unnamed") t = true) →
          new_col_name tiers = "") := by
  constructor
  · intro df
    simp only [colNames, rename_cols, List.map_map]
    apply List.map_congr_left
    intro col _
    exact new_col_name_eq col.1
  · intro tiers h
    rw [new_col_name_eq]
    have hnil : tiers.filter (fun t => !(containsSub ("Unnamed") t)) = [] :=
      List.filter_eq_nil_iff.mpr (fun t ht => by simp [h t ht])
    rw [hnil]
    rfl

/-- Witness for C7: a 3-tier all-placeholder header flattens to the
empty string. -/
theorem C7_header_flattening_witness :
    new_col_name ["Unnamed: 0_level_0", "Unnamed: 0_level_1", "Unnamed: 0_level_2"]
      = "" :=
  C7_header_flattening.2 _ (by decide)

/-- Looking up a name that is not among the column names raises a
`KeyError`. -/
lemma getColE_not_mem {f : Frame} {n : String} (h : n ∉ colNames f) :
    getColE f n = .error ("KeyError: " ++ n) := by
  rw [getColE]
  have hfind : f.find? (fun col => col.1 == n) = none := by
    rw [List.find?_eq_none]
    intro col hcol
    simp only [beq_iff_eq]
    intro hn
    exact h (hn ▸ List.mem_map_of_mem (fun col => col.1) hcol)
  rw [hfind]

/-- If any requested column lookup fails, the whole multi-column
selection `df[required_cols]` fails. -/
lemma getCols_error {f : Frame} {m : String} :
    ∀ ns : List String, m ∈ ns → getColE f m = .error ("KeyError: " ++ m) →
      ∃ e, getCols f ns = .error e := by
  intro ns
  induction ns with
  | nil => intro h; cases h
  | cons n ns ih =>
    intro hm herr
    cases hn : getColE f n with
    | error e => exact ⟨e, by simp [getCols, hn]⟩
    | ok col =>
      rcases List.mem_cons.1 hm with rfl | hm'
      · rw [hn] at herr
        cases herr
      · obtain ⟨e, he⟩ := ih hm' herr
        exact ⟨e, by simp [getCols, hn, he]⟩

/-- Claim C4: if any required metadata field (in particular
`"Speciality"`) is missing from the flattened column names, the
normalization pipeline fails with an exception already during column
selection (`focus_on_specific_columns`), so no report aggregate is ever
computed from this input. -/
theorem C4_missing_column_fails (raw : RawFrame) (m : String)
    (hm : m ∈ requiredMetaCols)
    (h : m ∉ colNames (rename_cols (dropAllNa raw))) :
    ∃ e, focus_on_specific_columns (rename_cols (dropAllNa raw)) = .error e
      ∧ get_df_from_excel raw = .error e := by
  have herr := getColE_not_mem h
  have hmem : m ∈ (colNames (rename_cols (dropAllNa raw))).filter
      (fun n => containsSub ("_Net_") n) ++ requiredMetaCols :=
    List.mem_append_right _ hm
  obtain ⟨e, he⟩ := getCols_error _ hmem herr
  have hfocus : focus_on_specific_columns (rename_cols (dropAllNa raw))
      = .error e := by
    simp only [focus_on_specific_columns]
    rw [he]
  refine ⟨e, hfocus, ?_⟩
  simp only [get_df_from_excel]
  rw [hfocus]

/-- A one-column raw table whose flattened header is `"A_B_C"` — no
metadata columns at all. -/
def rawC4 : RawFrame := [(["A", "B", "C"], [Cell.num 1])]

/-- Witness for C4: the concrete raw table lacking `"Speciality"` makes
both the selection step and the whole pipeline fail. -/
theorem C4_missing_column_fails_witness :
    ∃ e, focus_on_specific_columns (rename_cols (dropAllNa rawC4)) = .error e
      ∧ get_df_from_excel rawC4 = .error e :=
  C4_missing_column_fails rawC4 ("Speciality") (by decide) (by decide)

/-- `contains` on string lists is list membership. -/
lemma contains_iff (l : List String) (a : String) :
    l.contains a = true ↔ a ∈ l := by
  simp [List.contains, List.elem_iff]

/-- After a column update, finding the updated name yields the new
column (some column of that name existed). -/
lemma find?_map_upd_self (n : String) (v : List Cell) :
    ∀ f : Frame, f.any (fun col => col.1 == n) = true →
      (f.map (fun col => if col.1 == n then (n, v) else col)).find?
        (fun col => col.1 == n) = some (n, v) := by
  intro f
  induction f with
  | nil => intro h; cases h
  | cons p f ih =>
    intro h
    by_cases hp : (p.1 == n)
    · simp only [List.map_cons, if_pos hp]
      exact List.find?_cons_of_pos _ (by simp)
    · simp only [List.map_cons, if_neg hp]
      rw [List.find?_cons_of_neg (p := fun (col : String × List Cell) => col.1 == n) _ hp]
      apply ih
      rw [List.any_cons, Bool.or_eq_true] at h
      rcases h with h | h
      · exact absurd h hp
      · exact h

/-- A column update does not change lookups of other names. -/
lemma find?_map_upd_ne {m n : String} (hnm : m ≠ n) (v : List Cell) :
    ∀ f : Frame,
      (f.map (fun col => if col.1 == n then (n, v) else col)).find?
        (fun col => col.1 == m) = f.find? (fun col => col.1 == m) := by
  intro f
  induction f with
  | nil => rfl
  | cons p f ih =>
    by_cases hp : (p.1 == n)
    · have hp' : p.1 = n := beq_iff_eq.1 hp
      have hm1 : ¬ (((n, v) : String × List Cell).1 == m) = true := by
        simp only [beq_iff_eq]
        exact Ne.symm hnm
      have hm2 : ¬ (p.1 == m) = true := by
        simp only [hp', beq_iff_eq]
        exact Ne.symm hnm
      simp only [List.map_cons, if_pos hp]
      rw [List.find?_cons_of_neg (p := fun (col : String × List Cell) => col.1 == m) _ hm1,
        List.find?_cons_of_neg (p := fun (col : String × List Cell) => col.1 == m) _ hm2, ih]
    · simp only [List.map_cons, if_neg hp]
      by_cases hm : (p.1 == m)
      · rw [List.find?_cons_of_pos (p := fun (col : String × List Cell) => col.1 == m) _ hm,
          List.find?_cons_of_pos (p := fun (col : String × List Cell) => col.1 == m) _ hm]
      · rw [List.find?_cons_of_neg (p := fun (col : String × List Cell) => col.1 == m) _ hm,
          List.find?_cons_of_neg (p := fun (col : String × List Cell) => col.1 == m) _ hm, ih]

/-- Reading back an assigned column gives the assigned values. -/
lemma getColE_assign_self (f : Frame) (n : String) (v : List Cell) :
    getColE (assignCol f n v) n = .ok v := by
  rw [assignCol]
  split
  · rename_i hany
    simp only [getColE, find?_map_upd_self n v f hany]
  · rename_i hany
    rw [Bool.not_eq_true] at hany
    have h1 : f.find? (fun col => col.1 == n) = none := by
      rw [List.find?_eq_none]
      intro x hx
      exact (List.any_eq_false.1 hany) x hx
    simp only [getColE, List.find?_append, h1, Option.none_or]
    rw [List.find?_cons_of_pos _ (by simp)]

/-- Assigning one column does not change lookups of other names. -/
lemma getColE_assign_ne {m n : String} (hnm : m ≠ n) (f : Frame)
    (v : List Cell) : getColE (assignCol f n v) m = getColE f m := by
  rw [assignCol]
  split
  · simp only [getColE, find?_map_upd_ne hnm v f]
  · have h2 : (([(n, v)] : Frame).find? (fun col => col.1 == m)) = none := by
      rw [List.find?_cons_of_neg _ (by simp only [beq_iff_eq]; exact Ne.symm hnm)]
      rfl
    simp only [getColE, List.find?_append, h2, Option.or_none]

/-- Element-wise addition of two numeric columns is the zip of the
rational sums. -/
lemma seriesAdd_num : ∀ (as bs : List ℚ),
    seriesAdd (as.map Cell.num) (bs.map Cell.num)
      = .ok ((List.zipWith (fun a b => a + b) as bs).map Cell.num) := by
  intro as
  induction as with
  | nil => intro bs; cases bs <;> rfl
  | cons a as ih =>
    intro bs
    cases bs with
    | nil => rfl
    | cons b bs =>
      simp only [List.map_cons, seriesAdd, cellAdd, ih, List.zipWith_cons_cons]

/-- A successful folding-loop iteration: read the two sub-columns,
assign their sum, record the sub-column names. -/
lemma foldStep_ok (f : Frame) (rem : List String) (c : String)
    {ca ia v : List Cell}
    (h1 : getColE f (c ++ "_Net_Cash") = .ok ca)
    (h2 : getColE f (c ++ "_Net_Ins.") = .ok ia)
    (h3 : seriesAdd ca ia = .ok v) :
    foldStep (f, rem) c
      = .ok (assignCol f c v, rem ++ [c ++ "_Net_Cash", c ++ "_Net_Ins."]) := by
  simp only [foldStep, h1, h2, h3]

/-- The sub-column names recorded for removal by the folding loop. -/
def removeNames : List String → List String
  | [] => []
  | c :: cs => (c ++ "_Net_Cash") :: (c ++ "_Net_Ins.") :: removeNames cs

/-- The frame produced by a successful folding run: every category's
column assigned, in loop order, with the row-wise sum of its two
sub-columns. -/
def assignAll (A B : String → List ℚ) (cs : List String) (f : Frame) : Frame :=
  cs.foldl (fun g c => assignCol g c
    ((List.zipWith (fun a b => a + b) (A c) (B c)).map Cell.num)) f

/-- A column of an assignment result not named `n` was already present
in the target frame. -/
lemma mem_assign_of_ne {g : Frame} {n : String} {v : List Cell}
    {col : String × List Cell}
    (hcol : col ∈ assignCol g n v) (hne : col.1 ≠ n) : col ∈ g := by
  rw [assignCol] at hcol
  split at hcol
  · obtain ⟨q, hq, hmap⟩ := List.mem_map.1 hcol
    by_cases hqn : (q.1 == n)
    · rw [if_pos hqn] at hmap
      exfalso
      apply hne
      rw [← hmap]
    · rw [if_neg hqn] at hmap
      exact hmap ▸ hq
  · rcases List.mem_append.1 hcol with hg | hs
    · exact hg
    · exfalso
      apply hne
      have hcv : col = (n, v) := by simpa using hs
      rw [hcv]

/-- After an assignment, every column named `n` carries the assigned
value. -/
lemma assign_named_eq {g : Frame} {n : String} {v : List Cell} :
    ∀ col ∈ assignCol g n v, col.1 = n → col = (n, v) := by
  intro col hcol hname
  rw [assignCol] at hcol
  split at hcol
  · obtain ⟨q, hq, hmap⟩ := List.mem_map.1 hcol
    by_cases hqn : (q.1 == n)
    · rw [if_pos hqn] at hmap
      exact hmap.symm
    · rw [if_neg hqn] at hmap
      exfalso
      apply hqn
      rw [beq_iff_eq, hmap]
      exact hname
  · rename_i hany
    rw [Bool.not_eq_true] at hany
    rcases List.mem_append.1 hcol with hg | hs
    · exact absurd (beq_iff_eq.2 hname) (List.any_eq_false.1 hany col hg)
    · simpa using hs

/-- Specification of the folding loop: if every category's two numeric
sub-columns are present and no sub-column name collides with a category
name, the loop succeeds with frame `assignAll`; it records exactly the
sub-column names, leaves all other columns unchanged, stores in each
category column the row-wise sum of the two sub-columns, only adds
columns named after processed categories, and every column named after a
processed category carries that category's folded values. -/
lemma foldlE_spec (A B : String → List ℚ) :
    ∀ (cs : List String) (f : Frame) (rem : List String),
    (∀ c ∈ cs, getColE f (c ++ "_Net_Cash") = .ok ((A c).map Cell.num)
      ∧ getColE f (c ++ "_Net_Ins.") = .ok ((B c).map Cell.num)) →
    (∀ c ∈ cs, ∀ c' ∈ cs, ¬ c ++ "_Net_Cash" = c' ∧ ¬ c ++ "_Net_Ins." = c') →
    foldlE (f, rem) cs = .ok (assignAll A B cs f, rem ++ removeNames cs)
    ∧ (∀ m, m ∉ cs → getColE (assignAll A B cs f) m = getColE f m)
    ∧ (∀ c ∈ cs, getColE (assignAll A B cs f) c
        = .ok ((List.zipWith (fun a b => a + b) (A c) (B c)).map Cell.num))
    ∧ (∀ col ∈ assignAll A B cs f, col.1 ∉ cs → col ∈ f)
    ∧ (∀ c ∈ cs, ∀ col ∈ assignAll A B cs f, col.1 = c →
        col = (c, (List.zipWith (fun a b => a + b) (A c) (B c)).map Cell.num)) := by
  intro cs
  induction cs with
  | nil =>
    intro f rem _ _
    exact ⟨by simp [foldlE, removeNames, assignAll], fun m _ => rfl,
      fun c hc => absurd hc (List.not_mem_nil c),
      fun col hcol _ => hcol,
      fun c hc => absurd hc (List.not_mem_nil c)⟩
  | cons c cs ih =>
    intro f rem hread hdisj
    have hc := hread c (List.mem_cons_self c cs)
    have hstep := foldStep_ok f rem c hc.1 hc.2 (seriesAdd_num (A c) (B c))
    have hread' : ∀ c' ∈ cs,
        getColE (assignCol f c
            ((List.zipWith (fun a b => a + b) (A c) (B c)).map Cell.num))
          (c' ++ "_Net_Cash") = .ok ((A c').map Cell.num)
        ∧ getColE (assignCol f c
            ((List.zipWith (fun a b => a + b) (A c) (B c)).map Cell.num))
          (c' ++ "_Net_Ins.") = .ok ((B c').map Cell.num) := by
      intro c' hc'
      have hd := hdisj c' (List.mem_cons_of_mem c hc') c (List.mem_cons_self c cs)
      constructor
      · rw [getColE_assign_ne hd.1 f _]
        exact (hread c' (List.mem_cons_of_mem c hc')).1
      · rw [getColE_assign_ne hd.2 f _]
        exact (hread c' (List.mem_cons_of_mem c hc')).2
    have hdisj' : ∀ c' ∈ cs, ∀ c'' ∈ cs,
        ¬ c' ++ "_Net_Cash" = c'' ∧ ¬ c' ++ "_Net_Ins." = c'' :=
      fun c' h' c'' h'' =>
        hdisj c' (List.mem_cons_of_mem c h') c'' (List.mem_cons_of_mem c h'')
    obtain ⟨hrun, hoth, hcat, hkept, hnamed⟩ := ih
      (assignCol f c ((List.zipWith (fun a b => a + b) (A c) (B c)).map Cell.num))
      (rem ++ [c ++ "_Net_Cash", c ++ "_Net_Ins."]) hread' hdisj'
    have hAA : assignAll A B (c :: cs) f
        = assignAll A B cs (assignCol f c
            ((List.zipWith (fun a b => a + b) (A c) (B c)).map Cell.num)) := rfl
    refine ⟨?_, ?_, ?_, ?_, ?_⟩
    · simp only [foldlE, hstep]
      rw [hrun, hAA]
      simp [removeNames]
    · intro m hm
      have hm1 : m ∉ cs := fun hh => hm (List.mem_cons_of_mem c hh)
      have hm2 : m ≠ c := fun hh => hm (hh ▸ List.mem_cons_self c cs)
      rw [hAA, hoth m hm1, getColE_assign_ne hm2 f _]
    · intro c' hc'
      rw [hAA]
      rcases List.mem_cons.1 hc' with rfl | h'
      · by_cases hcs : c' ∈ cs
        · exact hcat c' hcs
        · rw [hoth c' hcs]
          exact getColE_assign_self f c' _
      · exact hcat c' h'
    · intro col hcol hnot
      rw [hAA] at hcol
      have h1 : col.1 ∉ cs := fun hh => hnot (List.mem_cons_of_mem c hh)
      have h2 : col.1 ≠ c := fun hh => hnot (hh ▸ List.mem_cons_self c cs)
      exact mem_assign_of_ne (hkept col hcol h1) h2
    · intro c' hc' col hcol hname
      rw [hAA] at hcol
      rcases List.mem_cons.1 hc' with rfl | h'
      · by_cases hcs : c' ∈ cs
        · exact hnamed c' hcs col hcol hname
        · exact assign_named_eq col
            (hkept col hcol (fun hh => hcs (hname ▸ hh))) hname
      · exact hnamed c' h' col hcol hname

/-- Dropping columns named in `R` does not change lookups of names
outside `R`. -/
lemma find?_filter_not_mem {R : List String} {n : String} (h : n ∉ R) :
    ∀ f : Frame,
      (f.filter (fun col => !(R.contains col.1))).find?
        (fun col => col.1 == n)
        = f.find? (fun col => col.1 == n) := by
  intro f
  induction f with
  | nil => rfl
  | cons col f ih =>
    rw [List.filter_cons]
    have hc : R.contains n = false := by
      cases hcc : R.contains n
      · rfl
      · exact absurd ((contains_iff R n).1 hcc) h
    by_cases hcol : (col.1 == n)
    · have hcol' : col.1 = n := beq_iff_eq.1 hcol
      have hkeep : (!(R.contains col.1)) = true := by
        rw [hcol', hc]
        rfl
      rw [if_pos hkeep,
        List.find?_cons_of_pos (p := fun (col : String × List Cell) => col.1 == n) _ hcol,
        List.find?_cons_of_pos (p := fun (col : String × List Cell) => col.1 == n) _ hcol]
    · by_cases hkeep : (!(R.contains col.1)) = true
      · rw [if_pos hkeep,
          List.find?_cons_of_neg (p := fun (col : String × List Cell) => col.1 == n) _ hcol,
          List.find?_cons_of_neg (p := fun (col : String × List Cell) => col.1 == n) _ hcol,
          ih]
      · rw [if_neg hkeep, ih,
          List.find?_cons_of_neg (p := fun (col : String × List Cell) => col.1 == n) _ hcol]

/-- `dropCols` leaves lookups of non-dropped names unchanged. -/
lemma getColE_dropCols_not_mem {R : List String} {n : String}
    (h : n ∉ R) (f : Frame) : getColE (dropCols f R) n = getColE f n := by
  simp only [getColE, dropCols, find?_filter_not_mem h f]

/-- `dropCols` removes every column whose name is in `R`. -/
lemma colNames_dropCols_not_mem {R : List String} {n : String}
    (h : n ∈ R) (f : Frame) : n ∉ colNames (dropCols f R) := by
  intro hmem
  simp only [colNames, dropCols, List.mem_map] at hmem
  obtain ⟨col, hcol, hceq⟩ := hmem
  have hkeep := (List.mem_filter.1 hcol).2
  rw [Bool.not_eq_true'] at hkeep
  have h2 := (contains_iff R col.1).2 (hceq ▸ h)
  rw [hkeep] at h2
  cases h2

/-- Claim C3: on any input frame that contains, for every fixed revenue
category, the numeric `_Net_Cash` and `_Net_Ins.` sub-columns (with
row values `A c` and `B c`), `get_revenue_per_category` succeeds; each
category column of the result holds the row-wise sum of the two
sub-columns, and both sub-columns are removed from the result. -/
theorem C3_fold_roundtrip (f : Frame) (A B : String → List ℚ)
    (h : ∀ c ∈ REVENUE_GENERATING_CATEGORIES,
      getColE f (c ++ "_Net_Cash") = .ok ((A c).map Cell.num)
      ∧ getColE f (c ++ "_Net_Ins.") = .ok ((B c).map Cell.num)) :
    ∃ f', get_revenue_per_category f = .ok f'
      ∧ ∀ c ∈ REVENUE_GENERATING_CATEGORIES,
        getColE f' c
          = .ok ((List.zipWith (fun a b => a + b) (A c) (B c)).map Cell.num)
        ∧ (c ++ "_Net_Cash") ∉ colNames f'
        ∧ (c ++ "_Net_Ins.") ∉ colNames f' := by
  obtain ⟨hrun, hoth, hcat, hkept, hnamed⟩ :=
    foldlE_spec A B REVENUE_GENERATING_CATEGORIES f [] h (by decide)
  refine ⟨dropCols (assignAll A B REVENUE_GENERATING_CATEGORIES f)
    (removeNames REVENUE_GENERATING_CATEGORIES), ?_, ?_⟩
  · simp only [get_revenue_per_category, fold_with]
    rw [hrun]
    simp
  · intro c hc
    have hcR : c ∉ removeNames REVENUE_GENERATING_CATEGORIES :=
      (by decide : ∀ x ∈ REVENUE_GENERATING_CATEGORIES,
        x ∉ removeNames REVENUE_GENERATING_CATEGORIES) c hc
    refine ⟨?_, ?_, ?_⟩
    · rw [getColE_dropCols_not_mem hcR (assignAll A B REVENUE_GENERATING_CATEGORIES f)]
      exact hcat c hc
    · exact colNames_dropCols_not_mem
        ((by decide : ∀ x ∈ REVENUE_GENERATING_CATEGORIES,
          (x ++ "_Net_Cash") ∈ removeNames REVENUE_GENERATING_CATEGORIES) c hc)
        (assignAll A B REVENUE_GENERATING_CATEGORIES f)
    · exact colNames_dropCols_not_mem
        ((by decide : ∀ x ∈ REVENUE_GENERATING_CATEGORIES,
          (x ++ "_Net_Ins.") ∈ removeNames REVENUE_GENERATING_CATEGORIES) c hc)
        (assignAll A B REVENUE_GENERATING_CATEGORIES f)

/-- A concrete one-row frame holding all twelve sub-columns. -/
def frameC3 : Frame :=
  [("Consultation_Net_Cash", [Cell.num 60]), ("Consultation_Net_Ins.", [Cell.num 40]),
   ("Lab_Net_Cash", [Cell.num 50]), ("Lab_Net_Ins.", [Cell.num 0]),
   ("Radiology_Net_Cash", [Cell.num 1]), ("Radiology_Net_Ins.", [Cell.num 2]),
   ("Procedure_Net_Cash", [Cell.num 3]), ("Procedure_Net_Ins.", [Cell.num 4]),
   ("Consumable_Net_Cash", [Cell.num 5]), ("Consumable_Net_Ins.", [Cell.num 6]),
   ("Drug_Net_Cash", [Cell.num 7]), ("Drug_Net_Ins.", [Cell.num 8])]

/-- The cash sub-column values of `frameC3`, per category. -/
def AC3 : String → List ℚ := fun c =>
  if c = "Consultation" then [60] else if c = "Lab" then [50]
  else if c = "Radiology" then [1] else if c = "Procedure" then [3]
  else if c = "Consumable" then [5] else [7]

/-- The insurance sub-column values of `frameC3`, per category. -/
def BC3 : String → List ℚ := fun c =>
  if c = "Consultation" then [40] else if c = "Lab" then [0]
  else if c = "Radiology" then [2] else if c = "Procedure" then [4]
  else if c = "Consumable" then [6] else [8]

/-- Witness for C3 at the concrete twelve-sub-column frame. -/
theorem C3_fold_roundtrip_witness :
    ∃ f', get_revenue_per_category frameC3 = .ok f'
      ∧ ∀ c ∈ REVENUE_GENERATING_CATEGORIES,
        getColE f' c
          = .ok ((List.zipWith (fun a b => a + b) (AC3 c) (BC3 c)).map Cell.num)
        ∧ (c ++ "_Net_Cash") ∉ colNames f'
        ∧ (c ++ "_Net_Ins.") ∉ colNames f' :=
  C3_fold_roundtrip frameC3 AC3 BC3
    (by intro c hc; fin_cases hc <;> exact ⟨rfl, rfl⟩)

/-- A successful lookup implies a column of that name exists. -/
lemma any_of_getColE_ok {f : Frame} {n : String} {v : List Cell}
    (h : getColE f n = .ok v) : f.any (fun col => col.1 == n) = true := by
  rw [getColE] at h
  cases hf : f.find? (fun col => col.1 == n) with
  | none => rw [hf] at h; cases h
  | some col =>
    rw [List.any_eq_true]
    exact ⟨col, List.mem_of_find?_eq_some hf,
      List.find?_some (p := fun (col : String × List Cell) => col.1 == n) hf⟩

/-- If every column named `n` already carries `(n, v)`, the update map
of an assignment is the identity. -/
lemma map_upd_id_of_named {g : Frame} {n : String} {v : List Cell}
    (h : ∀ col ∈ g, col.1 = n → col = (n, v)) :
    g.map (fun col => if col.1 == n then (n, v) else col) = g := by
  have he : ∀ col ∈ g, (if col.1 == n then (n, v) else col) = col := by
    intro col hcol
    by_cases hc : (col.1 == n)
    · rw [if_pos hc]
      exact (h col hcol (beq_iff_eq.1 hc)).symm
    · rw [if_neg hc]
  calc g.map (fun col => if col.1 == n then (n, v) else col)
      = g.map (fun col => col) := List.map_congr_left he
    _ = g := List.map_id' g

/-- Re-assigning a value that every same-named column already carries is
a no-op (the pandas overwrite path). -/
lemma assign_id_of_named {g : Frame} {n : String} {v : List Cell}
    (hany : g.any (fun col => col.1 == n) = true)
    (h : ∀ col ∈ g, col.1 = n → col = (n, v)) :
    assignCol g n v = g := by
  rw [assignCol, if_pos hany]
  exact map_upd_id_of_named h

/-- The folding loop over an appended list runs the two parts in
sequence. -/
lemma foldlE_append : ∀ (cs₁ cs₂ : List String) (st : Frame × List String),
    foldlE st (cs₁ ++ cs₂)
      = match foldlE st cs₁ with
        | .error e => .error e
        | .ok st' => foldlE st' cs₂ := by
  intro cs₁
  induction cs₁ with
  | nil => intro cs₂ st; rfl
  | cons c cs₁ ih =>
    intro cs₂ st
    show foldlE st (c :: (cs₁ ++ cs₂)) = _
    simp only [foldlE]
    cases hs : foldStep st c with
    | error e => rfl
    | ok st' => exact ih cs₂ st'

/-- One successful step of the folding loop. -/
lemma foldlE_cons_ok {st : Frame × List String} {c : String}
    {cs : List String} {st' : Frame × List String}
    (h : foldStep st c = .ok st') :
    foldlE st (c :: cs) = foldlE st' cs := by
  simp only [foldlE, h]

/-- `contains = false` is non-membership. -/
lemma contains_false_iff (l : List String) (a : String) :
    l.contains a = false ↔ a ∉ l := by
  constructor
  · intro h ha
    rw [(contains_iff l a).2 ha] at h
    cases h
  · intro ha
    cases hc : l.contains a
    · rfl
    · exact absurd ((contains_iff l a).1 hc) ha

/-- Membership in `(A ++ B) ++ C` ignores a middle part whose elements
all occur in `A`. -/
lemma mem_middle_absorb {x : String} {A B C : List String}
    (hB : ∀ b ∈ B, b ∈ A) : x ∈ (A ++ B) ++ C ↔ x ∈ A ++ C := by
  simp only [List.mem_append]
  constructor
  · rintro ((hx | hx) | hx)
    · exact Or.inl hx
    · exact Or.inl (hB x hx)
    · exact Or.inr hx
  · rintro (hx | hx)
    · exact Or.inl (Or.inl hx)
    · exact Or.inr hx

/-- `drop` only depends on which labels occur in the drop list, not on
their multiplicity or order. -/
lemma dropCols_congr (f : Frame) {R R' : List String}
    (h : ∀ x, x ∈ R ↔ x ∈ R') : dropCols f R = dropCols f R' := by
  unfold dropCols
  apply List.filter_congr
  intro col _
  by_cases hx : col.1 ∈ R
  · rw [(contains_iff R col.1).2 hx, (contains_iff R' col.1).2 ((h col.1).1 hx)]
  · rw [(contains_false_iff R col.1).2 hx,
      (contains_false_iff R' col.1).2 (fun hh => hx ((h col.1).2 hh))]

/-- Claim C9: on any input frame containing, for every fixed revenue
category, the numeric sub-columns, running the folding step with the
literal duplicated category list produces exactly the same output table
as running it with the deduplicated list: the repeated `"Lab"` iteration
overwrites the existing Lab column with the identical cash-plus-insurance
values and does not double them. -/
theorem C9_dedup_equiv (f : Frame) (A B : String → List ℚ)
    (h : ∀ c ∈ REVENUE_GENERATING_CATEGORIES,
      getColE f (c ++ "_Net_Cash") = .ok ((A c).map Cell.num)
      ∧ getColE f (c ++ "_Net_Ins.") = .ok ((B c).map Cell.num)) :
    get_revenue_per_category f = get_revenue_per_category_dedup f := by
  have hpre : ∀ c ∈ (["Consultation", "Lab", "Radiology", "Procedure"] : List String),
      getColE f (c ++ "_Net_Cash") = .ok ((A c).map Cell.num)
      ∧ getColE f (c ++ "_Net_Ins.") = .ok ((B c).map Cell.num) :=
    fun c hc => h c
      ((by decide : ∀ x ∈ (["Consultation", "Lab", "Radiology", "Procedure"] : List String),
        x ∈ REVENUE_GENERATING_CATEGORIES) c hc)
  obtain ⟨hrun₄, hoth₄, hcat₄, hkept₄, hnamed₄⟩ :=
    foldlE_spec A B ["Consultation", "Lab", "Radiology", "Procedure"] f [] hpre (by decide)
  set f4 := assignAll A B ["Consultation", "Lab", "Radiology", "Procedure"] f with hf4
  set r4 := ([] : List String)
    ++ removeNames ["Consultation", "Lab", "Radiology", "Procedure"] with hr4
  have hLc : getColE f4 ("Lab" ++ "_Net_Cash") = .ok ((A "Lab").map Cell.num) := by
    rw [hoth₄ ("Lab" ++ "_Net_Cash") (by decide)]
    exact (h "Lab" (by decide)).1
  have hLi : getColE f4 ("Lab" ++ "_Net_Ins.") = .ok ((B "Lab").map Cell.num) := by
    rw [hoth₄ ("Lab" ++ "_Net_Ins.") (by decide)]
    exact (h "Lab" (by decide)).2
  have hanyL : f4.any (fun col => col.1 == "Lab") = true :=
    any_of_getColE_ok (hcat₄ "Lab" (by decide))
  have hL4 : assignCol f4 "Lab"
      ((List.zipWith (fun a b => a + b) (A "Lab") (B "Lab")).map Cell.num) = f4 :=
    assign_id_of_named hanyL
      (fun col hcol hname => hnamed₄ "Lab" (by decide) col hcol hname)
  have hstepL : foldStep (f4, r4) "Lab"
      = .ok (f4, r4 ++ ["Lab" ++ "_Net_Cash", "Lab" ++ "_Net_Ins."]) := by
    have hst := foldStep_ok f4 r4 "Lab" hLc hLi (seriesAdd_num (A "Lab") (B "Lab"))
    rw [hL4] at hst
    exact hst
  have hreadpost : ∀ c ∈ (["Consumable", "Drug"] : List String),
      getColE f4 (c ++ "_Net_Cash") = .ok ((A c).map Cell.num)
      ∧ getColE f4 (c ++ "_Net_Ins.") = .ok ((B c).map Cell.num) := by
    intro c hc
    fin_cases hc
    · constructor
      · rw [hoth₄ ("Consumable" ++ "_Net_Cash") (by decide)]
        exact (h "Consumable" (by decide)).1
      · rw [hoth₄ ("Consumable" ++ "_Net_Ins.") (by decide)]
        exact (h "Consumable" (by decide)).2
    · constructor
      · rw [hoth₄ ("Drug" ++ "_Net_Cash") (by decide)]
        exact (h "Drug" (by decide)).1
      · rw [hoth₄ ("Drug" ++ "_Net_Ins.") (by decide)]
        exact (h "Drug" (by decide)).2
  obtain ⟨hrunDup, hoDup, hcDup, hkDup, hnDup⟩ :=
    foldlE_spec A B ["Consumable", "Drug"] f4
      (r4 ++ ["Lab" ++ "_Net_Cash", "Lab" ++ "_Net_Ins."]) hreadpost (by decide)
  obtain ⟨hrunDed, hoDed, hcDed, hkDed, hnDed⟩ :=
    foldlE_spec A B ["Consumable", "Drug"] f4 r4 hreadpost (by decide)
  have hsplit : REVENUE_GENERATING_CATEGORIES
      = ["Consultation", "Lab", "Radiology", "Procedure"]
        ++ ("Lab" :: ["Consumable", "Drug"]) := rfl
  have hsplit' : DEDUP_CATEGORIES
      = ["Consultation", "Lab", "Radiology", "Procedure"]
        ++ ["Consumable", "Drug"] := rfl
  have hdup : foldlE (f, []) REVENUE_GENERATING_CATEGORIES
      = .ok (assignAll A B ["Consumable", "Drug"] f4,
          (r4 ++ ["Lab" ++ "_Net_Cash", "Lab" ++ "_Net_Ins."])
            ++ removeNames ["Consumable", "Drug"]) := by
    rw [hsplit, foldlE_append ["Consultation", "Lab", "Radiology", "Procedure"]
      ("Lab" :: ["Consumable", "Drug"]) (f, []), hrun₄]
    show foldlE (f4, r4) ("Lab" :: ["Consumable", "Drug"]) = _
    rw [foldlE_cons_ok hstepL]
    exact hrunDup
  have hded : foldlE (f, []) DEDUP_CATEGORIES
      = .ok (assignAll A B ["Consumable", "Drug"] f4,
          r4 ++ removeNames ["Consumable", "Drug"]) := by
    rw [hsplit', foldlE_append ["Consultation", "Lab", "Radiology", "Procedure"]
      ["Consumable", "Drug"] (f, []), hrun₄]
    show foldlE (f4, r4) ["Consumable", "Drug"] = _
    exact hrunDed
  have hfinal : dropCols (assignAll A B ["Consumable", "Drug"] f4)
      ((r4 ++ ["Lab" ++ "_Net_Cash", "Lab" ++ "_Net_Ins."])
        ++ removeNames ["Consumable", "Drug"])
      = dropCols (assignAll A B ["Consumable", "Drug"] f4)
          (r4 ++ removeNames ["Consumable", "Drug"]) := by
    apply dropCols_congr
    intro x
    exact mem_middle_absorb (by rw [hr4]; decide)
  simp only [get_revenue_per_category, get_revenue_per_category_dedup,
    fold_with, hdup, hded, hfinal]

/-- Witness for C9 at the concrete twelve-sub-column frame. -/
theorem C9_dedup_equiv_witness :
    get_revenue_per_category frameC3 = get_revenue_per_category_dedup frameC3 :=
  C9_dedup_equiv frameC3 AC3 BC3
    (by intro c hc; fin_cases hc <;> exact ⟨rfl, rfl⟩)
